import Mathlib

/-!
Verification development for the `mcp-bash-go` repository.

The Go source is shallowly embedded: pure string manipulation is translated
to Lean functions over `String` (a structure holding a `List Char`), the
stateful session / manager / protocol-router code is translated to explicit
state-passing functions, and the interaction with the operating system
(pipe reads, pipe writes, timers, process spawning) is supplied as explicit
environment values describing what the OS did during one call.
-/

namespace MCPBash

/-! ### Go standard-library string primitives (pkg `strings`, `bufio`)

Each definition models the documented behaviour of the Go function it is
named after, at the level of `List Char` data. `bufio.Scanner` with the
default split function delivers the stream line by line with the line
terminator removed, so the output stream is modelled as a `List String`
of lines. -/

/-- Go `strings.HasPrefix s pre`. -/
def hasPrefix (s pre : String) : Bool :=
  pre.data.isPrefixOf s.data

/-- Go `strings.TrimPrefix s pre`: removes `pre` from the front of `s`
when present, otherwise returns `s` unchanged. -/
def trimPrefix (s pre : String) : String :=
  if hasPrefix s pre then ⟨s.data.drop pre.data.length⟩ else s

/-- Go `strings.TrimRight s "\n"`: removes all trailing newline
characters. -/
def trimRightNewline (s : String) : String :=
  ⟨(s.data.reverse.dropWhile (fun c => c = '\n')).reverse⟩

/-! ### Constants of `pkg/bash/bash.go` -/

/-- `MaxScannerBufferSize` (bash.go line 20): cap on the length of a single
line delivered by the scanner. -/
def MaxScannerBufferSize : Nat := 1024 * 1024

/-- `MaxOutputSize` (bash.go line 24): cap on captured command output and
on the stderr diagnostic buffer. -/
def MaxOutputSize : Nat := 512 * 1024

/-- The truncation notice appended by the output scanning goroutine
(bash.go line 260): `fmt.Sprintf("\n... [output truncated at %d bytes] ...\n", MaxOutputSize)`. -/
def truncationNotice : String := "\n... [output truncated at 524288 bytes] ...\n"

/-! ### The output-scanning goroutine of `BashSession.execute`
(bash.go lines 231-270) -/

/-- State of the output-scanning loop: the result buffer (`output`) and the
truncation flag (`truncated`). -/
structure ScanState where
  output : String
  truncated : Bool
deriving DecidableEq

/-- Initial scan state: empty builder, not truncated. -/
def ScanState.init : ScanState := ⟨"", false⟩

/-- One iteration of the scanning loop for a non-marker line
(bash.go lines 254-261):
if not yet truncated and the buffer is below `MaxOutputSize`, append the
line plus a newline; on the first line arriving after the cap is reached,
set the truncation flag and append the truncation notice; afterwards drop
the line. -/
def scanStep (st : ScanState) (line : String) : ScanState :=
  if st.truncated = false ∧ st.output.length < MaxOutputSize then
    { st with output := st.output ++ line ++ "\n" }
  else if st.truncated = false then
    { output := st.output ++ truncationNotice, truncated := true }
  else st

/-- The buffer state after scanning a list of non-marker lines. -/
def scanList (lines : List String) : ScanState :=
  lines.foldl scanStep ScanState.init

/-- The exit-code annotation step when the marker line is seen
(bash.go lines 244-251): strip the marker prefix to obtain the exit code;
when it is not the string `"0"`, append `"\n[Exit code: <code>]"`. -/
def markerFinish (st : ScanState) (exitCode : String) : String :=
  if exitCode ≠ "0" then st.output ++ "\n[Exit code: " ++ exitCode ++ "]"
  else st.output

/-- Result of the scanning goroutine: either the captured text sent on
`outputChan` when a marker line is seen, or the error sent on `errorChan`
when the stream ends (EOF or read error) before the marker. -/
inductive ScanOutcome where
  | completed (text : String)
  | streamClosed
deriving DecidableEq

/-- The scanning goroutine over the whole stream of lines read from the
stdout pipe during one `execute` call (bash.go lines 231-270): lines are
accumulated via `scanStep` until the first line beginning with the marker,
which yields `completed`; if the stream ends first, the goroutine reports
a read failure. -/
def scanLoop (marker : String) : ScanState → List String → ScanOutcome
  | _, [] => .streamClosed
  | st, line :: rest =>
    if hasPrefix line marker then
      .completed (markerFinish st (trimPrefix line marker))
    else
      scanLoop marker (scanStep st line) rest

/-! ### Process handle and session state -/

/-- Model of the `os.Process` handle owned by `exec.Cmd`.
`Process.Kill` after the process has been reaped by `Wait` returns
`ErrProcessDone` without delivering a signal; `killCalls` counts how many
times `Kill` was invoked on the handle, `signaled` whether a kill signal
was actually delivered. -/
structure ProcState where
  signaled : Bool
  reaped : Bool
  killCalls : Nat
deriving DecidableEq

/-- Go `os.Process.Kill`: delivers SIGKILL unless the process has already
been reaped, in which case it is a no-op error that the caller ignores.
Every invocation counts as a kill attempt. -/
def ProcState.kill (p : ProcState) : ProcState :=
  if p.reaped then { p with killCalls := p.killCalls + 1 }
  else { p with signaled := true, killCalls := p.killCalls + 1 }

/-- Go `exec.Cmd.Wait`: reaps the process. -/
def ProcState.wait (p : ProcState) : ProcState :=
  { p with reaped := true }

/-- `BashSession` (bash.go lines 28-45): the observable state of one
session — the `running` flag, the accumulated stderr buffer, the open/closed
state of the three pipes and the child-process handle. -/
structure BashSession where
  running : Bool
  stderrBuf : String
  stdinOpen : Bool
  stdoutOpen : Bool
  stderrOpen : Bool
  proc : ProcState
deriving DecidableEq

/-- The session built by `BashManager.createSession` (bash.go lines
103-155) once the pipes are created and the process started: running, all
pipes open, fresh process, empty stderr buffer. -/
def mkSession : BashSession :=
  { running := true
    stderrBuf := ""
    stdinOpen := true
    stdoutOpen := true
    stderrOpen := true
    proc := { signaled := false, reaped := false, killCalls := 0 } }

/-! ### `BashSession.execute` (bash.go lines 200-293) -/

/-- What the operating system and child process did during one `execute`
call: whether the write of the command to the stdin pipe succeeded, whether
the timeout elapsed before the scanning goroutine finished, the lines the
scanner read from the stdout pipe, and the stderr text the drainer had
accumulated by the final `consumeStderr`. -/
structure ExecEnv where
  writeOk : Bool
  timedOut : Bool
  lines : List String
  stderrAfter : String

/-- The failure cases of `execute`. -/
inductive ExecError where
  | notRunning
  | writeFailed
  | timedOut
  | readFailed
deriving DecidableEq

/-- Appending the trailing stderr section (bash.go lines 286-289). -/
def withStderrSection (out stderrOutput : String) : String :=
  if stderrOutput ≠ "" then out ++ "\n\nSTDERR:\n" ++ stderrOutput else out

/-- `BashSession.execute` (bash.go lines 200-293):
reject when not running; clear the stderr buffer; write the command (on
failure mark dead); race the scanning goroutine against the timeout (on
timeout or stream closure mark dead); on completion trim trailing newlines,
wait briefly and append the accumulated stderr as a labelled section. -/
def BashSession.execute (bs : BashSession) (marker : String) (env : ExecEnv) :
    BashSession × Except ExecError String :=
  if bs.running = false then
    (bs, .error .notRunning)
  else
    let bs := { bs with stderrBuf := "" }
    if env.writeOk = false then
      ({ bs with running := false }, .error .writeFailed)
    else if env.timedOut = true then
      ({ bs with running := false }, .error .timedOut)
    else
      match scanLoop marker ScanState.init env.lines with
      | .streamClosed => ({ bs with running := false }, .error .readFailed)
      | .completed out =>
        (bs, .ok (withStderrSection (trimRightNewline out) env.stderrAfter))

/-! ### `BashSession.close` (bash.go lines 297-337) -/

/-- `BashSession.close`: always clears `running`, closes all three pipes,
invokes `Kill` on the process handle and reaps it with `Wait`, then waits
for the stderr drainer. Closing an already-closed pipe and killing an
already-reaped process are ignored no-op errors. -/
def BashSession.close (bs : BashSession) : BashSession :=
  { bs with
    running := false
    stdinOpen := false
    stdoutOpen := false
    stderrOpen := false
    proc := bs.proc.kill.wait }

/-! ### The stderr drainer (bash.go lines 160-180) -/

/-- One iteration of `drainStderr`: a line read from the stderr pipe is
appended (with a newline) only while the buffer is below `MaxOutputSize`;
once the cap is reached further lines are dropped. -/
def drainStep (buf line : String) : String :=
  if buf.length < MaxOutputSize then buf ++ line ++ "\n" else buf

/-- The stderr buffer after the drainer has consumed a list of lines. -/
def drainLines (buf : String) (lines : List String) : String :=
  lines.foldl drainStep buf

/-! ### `BashManager` (bash.go lines 47-101, 339-348) -/

/-- `BashManager` state: the (at most one) current session. -/
structure BashManager where
  session : Option BashSession

/-- Environment of one `ExecuteCommand` call: whether `createSession`
succeeds (pipe creation and process start), the completion marker generated
for this call, and the OS behaviour seen by the delegated `execute`. -/
structure MgrEnv where
  createOk : Bool
  marker : String
  exec : ExecEnv

/-- Errors surfaced by `ExecuteCommand`: the wrapped session-creation
failure, or a failure of the delegated `execute`. -/
inductive MgrError where
  | createFailed
  | execFailed (e : ExecError)
deriving DecidableEq

/-- Result of one `ExecuteCommand` call: the new manager state, the state
of the old dead session after its explicit `close` when one was cleaned up
(bash.go lines 75-79), and the returned value. -/
structure MgrOutcome where
  mgr : BashManager
  closedOld : Option BashSession
  result : Except MgrError String

/-- The guard of bash.go line 71: `bm.session == nil || !bm.session.running`. -/
def sessionDead (bm : BashManager) : Bool :=
  match bm.session with
  | none => true
  | some s => !s.running

/-- `BashManager.ExecuteCommand` (bash.go lines 66-86): under the manager
lock, when no session exists or the current one is not running, first close
the dead session (if any), then create a fresh session; on creation failure
return the wrapped error (the old closed session, if any, stays in place
with `running = false`); otherwise delegate the command to the current
session. -/
def BashManager.ExecuteCommand (bm : BashManager) (env : MgrEnv) : MgrOutcome :=
  match bm.session with
  | some s =>
    if s.running then
      let r := s.execute env.marker env.exec
      ⟨⟨some r.1⟩, none, match r.2 with
        | .ok out => .ok out
        | .error e => .error (.execFailed e)⟩
    else
      let old := s.close
      if env.createOk then
        let r := mkSession.execute env.marker env.exec
        ⟨⟨some r.1⟩, some old, match r.2 with
          | .ok out => .ok out
          | .error e => .error (.execFailed e)⟩
      else
        ⟨⟨some old⟩, some old, .error .createFailed⟩
  | none =>
    if env.createOk then
      let r := mkSession.execute env.marker env.exec
      ⟨⟨some r.1⟩, none, match r.2 with
        | .ok out => .ok out
        | .error e => .error (.execFailed e)⟩
    else
      ⟨⟨none⟩, none, .error .createFailed⟩

end MCPBash

/-! ## The MCP protocol layer (`pkg/mcp/server.go`, `pkg/mcp/transport.go`) -/

namespace MCPServer

open MCPBash (hasPrefix)

/-- A parsed inbound frame (`RequestMessage`): the JSON-RPC identifier
(`none` for a frame sent without an id, i.e. a Notification), the method
name, and whether the params of an `initialize` frame unmarshal into
`InitializeParams`. -/
structure RequestMessage where
  id : Option Nat
  method : String
  paramsValid : Bool

/-- Outcome of invoking a registered request handler on this call. -/
inductive HandlerOutcome where
  | ok (result : String)
  | err (msg : String)
deriving DecidableEq

/-- Server state (`Server`): the initialization flag, the registered
request handlers (with the outcome each would produce on this call) and the
set of registered notification-handler methods. -/
structure Server where
  ready : Bool
  handlers : String → Option HandlerOutcome
  notifHandlers : String → Bool

/-- An outbound `ResponseMessage`: the correlated id, an optional result,
and an optional error (code and message). -/
structure ResponseMessage where
  id : Option Nat
  result : Option String
  errCode : Option Int
  errMsg : Option String
deriving DecidableEq

/-- The error response built at server.go lines 122-129 / 140-147 /
156-163 and in `handleInitialize`. -/
def errorResponse (id : Option Nat) (code : Int) (msg : String) : ResponseMessage :=
  ⟨id, none, some code, some msg⟩

/-- The abstract payload of a successful `initialize` response
(protocol version, server info, capabilities). -/
def initializeResultPayload : String := "initialize-result"

/-- `Server.handleRequest` (server.go lines 73-190, with
`handleInitialize` at lines 193-271): returns the updated server state and
the response to write, `none` when no response is produced.  Branch order
follows the source: `initialize` first, then the two initialized
notification spellings, then the `notifications/` prefix convention, then
the not-initialized rejection (sparing `ping`), then the method table. -/
def Server.handleRequest (s : Server) (req : RequestMessage) :
    Server × Option ResponseMessage :=
  if req.method = "initialize" then
    if req.paramsValid then
      ({ s with ready := true }, some ⟨req.id, some initializeResultPayload, none, none⟩)
    else
      (s, some (errorResponse req.id (-32602) "Invalid initialize parameters"))
  else if req.method = "notifications/initialized" then
    ({ s with ready := true }, none)
  else if req.method = "initialized" then
    ({ s with ready := true }, none)
  else if hasPrefix req.method "notifications/" then
    (s, none)
  else if s.ready = false ∧ req.method ≠ "ping" then
    (s, some (errorResponse req.id (-32002) "Server not initialized"))
  else
    match s.handlers req.method with
    | none => (s, some (errorResponse req.id (-32601) ("Method not supported: " ++ req.method)))
    | some (.err msg) => (s, some (errorResponse req.id (-32000) msg))
    | some (.ok result) => (s, some ⟨req.id, some result, none, none⟩)

/-- `StdioTransport.handleAndRespond` (transport.go lines 120-154): invoke
the handler and write the response to stdout only when it is non-empty;
returns the new server state and the list of frames written. -/
def handleAndRespond (s : Server) (req : RequestMessage) :
    Server × List ResponseMessage :=
  let r := s.handleRequest req
  (r.1, match r.2 with
    | none => []
    | some resp => [resp])

end MCPServer

/-! ## Configuration loading (`pkg/config/config.go`) -/

namespace MCPConfig

/-- `NetworkConfig` (config.go lines 16-22). -/
structure NetworkConfig where
  enabled : Bool
  host : String
  port : Int
  deriving DecidableEq

/-- `Config` (config.go lines 25-29).  After `json.Unmarshal` into a
zero-valued `Config`, fields absent from the file keep their Go zero
values: `commandTimeout = 0`, `enabled = false`, `network = none`. -/
structure Config where
  commandTimeout : Int
  enabled : Bool
  network : Option NetworkConfig
  deriving DecidableEq

/-- What the filesystem presented to `LoadConfig`: no config file in either
search directory, an unreadable file, an unparsable file, or a file that
parsed into a `Config` value. -/
inductive ConfigFile where
  | absent
  | unreadable
  | unparsable
  | parsed (c : Config)

/-- The failure cases of `LoadConfig` and `createDefaultConfig`. -/
inductive LoadError where
  | readFailed
  | parseFailed
  | bashDisabled
  | writeDefaultFailed
deriving DecidableEq

/-- `createDefaultConfig` (config.go lines 129-150): the generated default
enables the tool with a 600-second timeout and no network section; fails
only if the file cannot be written. -/
def createDefaultConfig (writeOk : Bool) : Except LoadError Config :=
  if writeOk then .ok { commandTimeout := 600, enabled := true, network := none }
  else .error .writeDefaultFailed

/-- `LoadConfig` (config.go lines 38-113): with no file present, create the
default; otherwise read and parse the file, reject with `ErrBashDisabled`
unless `enabled` is true, then apply the timeout and network defaults. -/
def LoadConfig (file : ConfigFile) (writeOk : Bool) : Except LoadError Config :=
  match file with
  | .absent => createDefaultConfig writeOk
  | .unreadable => .error .readFailed
  | .unparsable => .error .parseFailed
  | .parsed c =>
    if c.enabled = false then .error .bashDisabled
    else
      let c := if c.commandTimeout = 0 then { c with commandTimeout := 600 } else c
      let c :=
        match c.network with
        | some n =>
          if n.enabled then
            let n' : NetworkConfig :=
              { n with
                host := if n.host = "" then "localhost" else n.host
                port := if n.port = 0 then 3000 else n.port }
            { c with network := some n' }
          else c
        | none => c
      .ok c

end MCPConfig

namespace MCPBash

/-! ### Measures used to state the output-cap properties -/

/-- The number of bytes the scanned lines contribute to the result buffer
when none are dropped: each line plus its re-appended newline. -/
def totalSize : List String → Nat
  | [] => 0
  | l :: ls => l.length + 1 + totalSize ls

/-- The text the result buffer holds when every line is appended. -/
def joinLines : List String → String
  | [] => ""
  | l :: ls => l ++ "\n" ++ joinLines ls

/-- A single output line one byte longer than `MaxOutputSize`
plus the truncation notice: used to exhibit that the documented output
bound can be exceeded. -/
def hugeLine : String :=
  ⟨List.replicate (MaxOutputSize + truncationNotice.length + 1) 'a'⟩

/-- A single stderr line of exactly `MaxOutputSize` bytes: used to exhibit
that the diagnostic buffer can exceed its cap. -/
def capLine : String := ⟨List.replicate MaxOutputSize 'a'⟩

/-- A session whose process has died (as observed after a timeout):
the state `ExecuteCommand` replaces. -/
def deadSession : BashSession := { mkSession with running := false }

end MCPBash

namespace MCPServer

/-- A fresh, uninitialized server with no registered handlers: the state in
which the notification-vs-request distinction is exercised. -/
def freshServer : Server :=
  { ready := false, handlers := fun _ => none, notifHandlers := fun _ => false }

end MCPServer

namespace MCPBash

example : scanList ["hi"] = ⟨"hi\n", false⟩ := by decide
example : scanLoop "M" ScanState.init ["hi", "M0"] = .completed "hi\n" := by decide
example : scanLoop "M" ScanState.init ["hi", "M7"] = .completed "hi\n\n[Exit code: 7]" := by decide
example :
    (BashSession.execute mkSession "M" ⟨true, false, ["hi", "M0"], ""⟩).2 = .ok "hi" := by rfl
example :
    (BashSession.execute mkSession "M" ⟨true, false, ["hi", "M7"], ""⟩).2 =
      .ok "hi\n\n[Exit code: 7]" := by rfl
example :
    (BashSession.execute mkSession "M" ⟨true, false, ["hi", "M0"], "oops\n"⟩).2 =
      .ok "hi\n\nSTDERR:\noops\n" := by rfl

end MCPBash

namespace MCPBash

/-! ## Helper lemmas on the string primitives -/

theorem hasPrefix_append (m t : String) : hasPrefix (m ++ t) m = true := by
  simp [hasPrefix, String.data_append, List.isPrefixOf_iff_prefix]

theorem trimPrefix_append (m t : String) : trimPrefix (m ++ t) m = t := by
  simp [trimPrefix, hasPrefix_append, String.data_append, List.drop_left]

theorem trimRightNewline_last_ne (l : List Char) (c : Char) (h : ¬ c = '\n') :
    trimRightNewline ⟨l ++ [c]⟩ = ⟨l ++ [c]⟩ := by
  simp [trimRightNewline, List.dropWhile_cons, h]

theorem trimRightNewline_newline (l : List Char) :
    trimRightNewline ⟨l ++ ['\n']⟩ = trimRightNewline ⟨l⟩ := by
  simp [trimRightNewline, List.dropWhile_cons]

theorem trimRightNewline_no_newline (l : List Char) (h : '\n' ∉ l) :
    trimRightNewline ⟨l⟩ = ⟨l⟩ := by
  unfold trimRightNewline
  congr 1
  cases hrev : l.reverse with
  | nil =>
    have hl : l = [] := by simpa using congrArg List.reverse hrev
    simp [hl]
  | cons c t =>
    have hc : c ∈ l := List.mem_reverse.mp (hrev ▸ List.mem_cons_self c t)
    have hcne : ¬ (c = '\n') := fun he => h (he ▸ hc)
    show (List.dropWhile _ (c :: t)).reverse = l
    rw [List.dropWhile_cons]
    simp [hcne, ← hrev]

end MCPBash

namespace MCPBash

/-! ## Helper lemmas on the output-scanning loop -/

theorem scanStep_truncated (st : ScanState) (l : String) (h : st.truncated = true) :
    scanStep st l = st := by
  simp [scanStep, h]

theorem scanStep_append (st : ScanState) (l : String)
    (hns : st.truncated = false) (hlt : st.output.length < MaxOutputSize) :
    scanStep st l = ⟨st.output ++ l ++ "\n", false⟩ := by
  cases st
  simp_all [scanStep]

theorem scanLoop_marker (marker mline : String) (pre rest : List String) (st : ScanState)
    (hpre : ∀ l ∈ pre, hasPrefix l marker = false)
    (hm : hasPrefix mline marker = true) :
    scanLoop marker st (pre ++ mline :: rest) =
      .completed (markerFinish (pre.foldl scanStep st) (trimPrefix mline marker)) := by
  induction pre generalizing st with
  | nil => simp [scanLoop, hm]
  | cons l ls ih =>
    have hl : hasPrefix l marker = false := hpre l (List.mem_cons_self l ls)
    simp only [List.cons_append, scanLoop, hl, Bool.false_eq_true, if_false,
      List.foldl_cons]
    exact ih (scanStep st l) (fun x hx => hpre x (List.mem_cons_of_mem l hx))

theorem foldl_scanStep_small (lines : List String) (st : ScanState)
    (hns : st.truncated = false)
    (hsz : st.output.length + totalSize lines ≤ MaxOutputSize) :
    lines.foldl scanStep st = ⟨st.output ++ joinLines lines, false⟩ := by
  induction lines generalizing st with
  | nil =>
    cases st
    simp_all [joinLines, String.append_empty]
  | cons l ls ih =>
    have hlt : st.output.length < MaxOutputSize := by
      simp only [totalSize] at hsz
      omega
    rw [List.foldl_cons, scanStep_append st l hns hlt]
    rw [ih ⟨st.output ++ l ++ "\n", false⟩ rfl]
    · simp only [joinLines]
      congr 1
      simp [String.append_assoc]
    · simp only [String.length_append, totalSize] at hsz ⊢
      have h1 : ("\n" : String).length = 1 := rfl
      omega

theorem foldl_scanStep_inv (lines : List String) (L : Nat) (st : ScanState)
    (hL : ∀ l ∈ lines, l.length ≤ L)
    (h1 : st.truncated = false → st.output.length ≤ MaxOutputSize + L)
    (h2 : st.truncated = true →
      st.output.length ≤ MaxOutputSize + L + truncationNotice.length) :
    (lines.foldl scanStep st).output.length ≤
      MaxOutputSize + L + truncationNotice.length := by
  induction lines generalizing st with
  | nil =>
    cases hb : st.truncated with
    | false => have := h1 hb; simp; omega
    | true => simpa using h2 hb
  | cons l ls ih =>
    have hlL : l.length ≤ L := hL l (List.mem_cons_self l ls)
    have hL' : ∀ x ∈ ls, x.length ≤ L := fun x hx => hL x (List.mem_cons_of_mem l hx)
    rw [List.foldl_cons]
    cases hb : st.truncated with
    | true =>
      rw [scanStep_truncated st l hb]
      exact ih st hL' h1 h2
    | false =>
      by_cases hlt : st.output.length < MaxOutputSize
      · rw [scanStep_append st l hb hlt]
        refine ih _ hL' (fun _ => ?_) (by simp)
        have h1' : ("\n" : String).length = 1 := rfl
        simp only [String.length_append]
        omega
      · have hstep : scanStep st l = ⟨st.output ++ truncationNotice, true⟩ := by
          cases st; simp_all [scanStep]
        rw [hstep]
        refine ih _ hL' (by simp) (fun _ => ?_)
        have := h1 hb
        simp only [String.length_append]
        omega

theorem foldl_scanStep_notice (lines : List String) (st : ScanState)
    (h : st.truncated = true → ∃ p, st.output = p ++ truncationNotice) :
    (lines.foldl scanStep st).truncated = true →
      ∃ p, (lines.foldl scanStep st).output = p ++ truncationNotice := by
  induction lines generalizing st with
  | nil => exact h
  | cons l ls ih =>
    rw [List.foldl_cons]
    cases hb : st.truncated with
    | true => rw [scanStep_truncated st l hb]; exact ih st h
    | false =>
      by_cases hlt : st.output.length < MaxOutputSize
      · rw [scanStep_append st l hb hlt]
        exact ih _ (by simp)
      · have hstep : scanStep st l = ⟨st.output ++ truncationNotice, true⟩ := by
          cases st; simp_all [scanStep]
        rw [hstep]
        exact ih _ (fun _ => ⟨st.output, rfl⟩)

end MCPBash

namespace MCPBash

/-- C1: when the output-scanning loop of `BashSession.execute` observes a
line beginning with the generated completion marker, the marker line itself
is excluded from the returned text (the result is built from the preceding
lines alone), the exit code is obtained by stripping the marker prefix from
that line, a reported exit code of "0" adds no annotation, and a non-zero
reported exit code N makes the pre-stderr body of the returned text end
with "[Exit code: N]" (trailing-newline trimming does not remove it, and
the stderr section comes after it); in particular a command whose only
output line is "hi" with exit code 0 returns exactly "hi". -/
theorem execute_marker_completion (bs : BashSession) (marker mline code : String)
    (pre rest : List String) (env : ExecEnv)
    (hrun : bs.running = true)
    (hw : env.writeOk = true)
    (ht : env.timedOut = false)
    (hlines : env.lines = pre ++ mline :: rest)
    (hpre : ∀ l ∈ pre, hasPrefix l marker = false)
    (hm : hasPrefix mline marker = true)
    (hcode : trimPrefix mline marker = code) :
    bs.execute marker env =
      ({ bs with stderrBuf := "" },
        .ok (withStderrSection (trimRightNewline (markerFinish (scanList pre) code))
          env.stderrAfter)) ∧
    (code = "0" → markerFinish (scanList pre) code = (scanList pre).output) ∧
    (code ≠ "0" →
      trimRightNewline (markerFinish (scanList pre) code) =
        (scanList pre).output ++ "\n[Exit code: " ++ code ++ "]" ∧
      ∃ p, trimRightNewline (markerFinish (scanList pre) code) =
        p ++ "[Exit code: " ++ code ++ "]") := by
  refine ⟨?_, fun h0 => by simp [markerFinish, h0], fun hne => ?_⟩
  · simp only [BashSession.execute, hrun, hw, ht, Bool.true_eq_false, if_false,
      Bool.false_eq_true, ite_false]
    rw [hlines, scanLoop_marker marker mline pre rest ScanState.init hpre hm, hcode]
    rfl
  · have hfin : markerFinish (scanList pre) code =
        (scanList pre).output ++ "\n[Exit code: " ++ code ++ "]" := by
      simp [markerFinish, hne]
    have hdec : (scanList pre).output ++ "\n[Exit code: " ++ code ++ "]" =
        ⟨((scanList pre).output ++ "\n[Exit code: " ++ code).data ++ [']']⟩ := by
      apply String.ext
      simp [String.data_append]
    have htrim : trimRightNewline (markerFinish (scanList pre) code) =
        (scanList pre).output ++ "\n[Exit code: " ++ code ++ "]" := by
      rw [hfin, hdec, trimRightNewline_last_ne _ _ (by decide)]
    refine ⟨htrim, ⟨(scanList pre).output ++ "\n", ?_⟩⟩
    rw [htrim, String.append_assoc (scanList pre).output "\n" "[Exit code: "]
    have hlit : ("\n" : String) ++ "[Exit code: " = "\n[Exit code: " := by decide
    rw [hlit]

/-- C1 witness: the `execute("echo hi")` scenario — a single output line
"hi" followed by the marker line reporting exit code 0 returns exactly
"hi". -/
theorem execute_marker_completion_witness :
    (mkSession.running = true ∧ (∀ l ∈ ["hi"], hasPrefix l "M" = false) ∧
      hasPrefix "M0" "M" = true ∧ trimPrefix "M0" "M" = "0") ∧
    mkSession.execute "M" ⟨true, false, ["hi", "M0"], ""⟩ =
      ({ mkSession with stderrBuf := "" }, .ok "hi") := by
  refine ⟨by decide, ?_⟩
  have h := (execute_marker_completion mkSession "M" "M0" "0" ["hi"] []
    ⟨true, false, ["hi", "M0"], ""⟩ rfl rfl rfl rfl (by decide) (by decide)
    (by decide)).1
  rw [h]
  rfl

end MCPBash

namespace MCPBash

theorem hasPrefix_replicate_a (n : Nat) :
    hasPrefix ⟨List.replicate (n + 1) 'a'⟩ "M" = false := by
  show (("M" : String).data.isPrefixOf (List.replicate (n + 1) 'a')) = false
  rw [List.replicate_succ]
  show (['M'].isPrefixOf ('a' :: List.replicate n 'a')) = false
  simp [List.isPrefixOf]

theorem totalSize_single (s : String) : totalSize [s] = s.length + 1 := by
  simp [totalSize]

theorem execute_completed (bs : BashSession) (marker : String) (env : ExecEnv)
    (out : String)
    (hrun : bs.running = true) (hw : env.writeOk = true) (ht : env.timedOut = false)
    (hscan : scanLoop marker ScanState.init env.lines = .completed out) :
    bs.execute marker env =
      ({ bs with stderrBuf := "" },
        .ok (withStderrSection (trimRightNewline out) env.stderrAfter)) := by
  simp only [BashSession.execute, hrun, hw, ht, Bool.true_eq_false, if_false,
    Bool.false_eq_true, ite_false, hscan]

/-- C2 counterexample: the claim asserts that whenever the output size `S`
exceeds `MaxOutputSize` the returned text has length at most
`MaxOutputSize + length of the truncation notice` and ends with the notice.
A single output line of `MaxOutputSize + 45` bytes refutes both parts: the
line is appended whole (the cap is only checked before appending), no
truncation notice is ever emitted, and the returned text is the whole line,
longer than the claimed bound. -/
theorem scan_cap_counterexample :
    MaxOutputSize < totalSize [hugeLine] ∧
    (mkSession.execute "M" ⟨true, false, [hugeLine, "M0"], ""⟩).2 = .ok hugeLine ∧
    MaxOutputSize + truncationNotice.length < hugeLine.length := by
  have hlen : hugeLine.length = MaxOutputSize + truncationNotice.length + 1 := by
    show (List.replicate (MaxOutputSize + truncationNotice.length + 1) 'a').length = _
    exact List.length_replicate _ _
  have hpre : hasPrefix hugeLine "M" = false := hasPrefix_replicate_a _
  refine ⟨by rw [totalSize_single]; omega, ?_, by omega⟩
  have hscan : scanLoop "M" ScanState.init [hugeLine, "M0"] =
      .completed (markerFinish ([hugeLine].foldl scanStep ScanState.init)
        (trimPrefix "M0" "M")) := by
    have := scanLoop_marker "M" "M0" [hugeLine] [] ScanState.init
      (by intro l hl; simp at hl; subst hl; exact hpre) (by decide)
    simpa using this
  have hfold : [hugeLine].foldl scanStep ScanState.init =
      ⟨hugeLine ++ "\n", false⟩ := by
    rw [List.foldl_cons, scanStep_append ScanState.init hugeLine rfl (by decide),
      List.foldl_nil]
    congr 1
  have hcode : trimPrefix "M0" "M" = "0" := by decide
  have hscan' : scanLoop "M" ScanState.init [hugeLine, "M0"] =
      .completed (hugeLine ++ "\n") := by
    rw [hscan, hfold, hcode]
    simp [markerFinish]
  have htrim : trimRightNewline (hugeLine ++ "\n") = hugeLine := by
    have hd : hugeLine ++ "\n" = ⟨hugeLine.data ++ ['\n']⟩ := by
      apply String.ext; simp [String.data_append]
    have hmem : ('\n') ∉ hugeLine.data := by
      intro hmem
      have h2 := List.eq_of_mem_replicate
        (show ('\n') ∈ List.replicate
          (MaxOutputSize + truncationNotice.length + 1) 'a' from hmem)
      exact absurd h2 (by decide)
    rw [hd, trimRightNewline_newline]
    show trimRightNewline ⟨hugeLine.data⟩ = hugeLine
    rw [trimRightNewline_no_newline hugeLine.data hmem]
  rw [execute_completed mkSession "M" ⟨true, false, [hugeLine, "M0"], ""⟩
    (hugeLine ++ "\n") rfl rfl rfl hscan']
  simp [withStderrSection, htrim]

/-- C2 (amended): if the total output size `S` is at most `MaxOutputSize`
the full output is buffered unmodified and no truncation occurs.  When the
cap is exceeded the guarantee is weaker than claimed: the buffer length is
bounded by `MaxOutputSize + L + length of the notice` where `L` bounds the
length of a single line (the cap is checked only before appending a line,
so one whole line may be appended beyond it); the buffer ends with the
truncation notice only when the truncation flag was set, i.e. when some
line arrived after the cap was already reached; lines arriving once the
truncation flag is set are dropped, not buffered. -/
theorem scan_output_cap (lines : List String) (L : Nat)
    (hL : ∀ l ∈ lines, l.length ≤ L) :
    (totalSize lines ≤ MaxOutputSize → scanList lines = ⟨joinLines lines, false⟩) ∧
    (scanList lines).output.length ≤ MaxOutputSize + L + truncationNotice.length ∧
    ((scanList lines).truncated = true →
      ∃ p, (scanList lines).output = p ++ truncationNotice) ∧
    (∀ st : ScanState, ∀ l : String, st.truncated = true → scanStep st l = st) := by
  refine ⟨?_, ?_, ?_, fun st l h => scanStep_truncated st l h⟩
  · intro hS
    unfold scanList
    rw [foldl_scanStep_small lines ScanState.init rfl (by simpa [ScanState.init] using hS)]
    congr 1
  · exact foldl_scanStep_inv lines L ScanState.init hL
      (fun _ => by simp [ScanState.init]) (fun hcon => by simp [ScanState.init] at hcon)
  · exact foldl_scanStep_notice lines ScanState.init
      (fun hcon => by simp [ScanState.init] at hcon)

/-- C2 witness: two short lines are buffered in full and satisfy the
bound. -/
theorem scan_output_cap_witness :
    (∀ l ∈ ["hi", "there"], l.length ≤ 5) ∧
    scanList ["hi", "there"] = ⟨"hi\nthere\n", false⟩ ∧
    (scanList ["hi", "there"]).output.length ≤
      MaxOutputSize + 5 + truncationNotice.length := by
  refine ⟨by decide, ?_, (scan_output_cap ["hi", "there"] 5 (by decide)).2.1⟩
  have h := (scan_output_cap ["hi", "there"] 5 (by decide)).1 (by decide)
  rw [h]
  decide

end MCPBash

namespace MCPBash

/-- C3 counterexample: the claim says `execute` fails exactly when the
session is not running, the timeout elapses, or the stream closes before
the marker; here is a call outside all three cases — the session is
running, no timeout occurs, and the scanner would find the marker — that
still fails, because the write of the command to the stdin pipe fails
(bash.go lines 218-221), an error case the claim omits. -/
theorem execute_write_failure_counterexample :
    mkSession.running = true ∧
    (⟨false, false, ["hi", "M0"], ""⟩ : ExecEnv).timedOut = false ∧
    scanLoop "M" ScanState.init ["hi", "M0"] = .completed "hi\n" ∧
    mkSession.execute "M" ⟨false, false, ["hi", "M0"], ""⟩ =
      ({ mkSession with running := false }, .error .writeFailed) := by
  refine ⟨rfl, rfl, by decide, rfl⟩

/-- C3 (amended): `execute` fails exactly in four cases — (1) when
`running = false` at entry it returns a "session not running" failure with
a result independent of anything the OS would do (no write is attempted);
(2) when the write to the stdin pipe fails it marks `running = false` and
returns a write failure; (3) when the timeout elapses before the marker is
seen it marks `running = false` and returns a timeout failure; (4) when the
output stream closes before the marker it marks `running = false` and
returns a read failure; in every other case it returns the captured text
without error and `running` stays true. -/
theorem execute_failure_cases (bs : BashSession) (marker : String) (env : ExecEnv) :
    (bs.running = false →
      ∀ env' : ExecEnv, bs.execute marker env' = (bs, .error .notRunning)) ∧
    (bs.running = true → env.writeOk = false →
      bs.execute marker env =
        ({ bs with stderrBuf := "", running := false }, .error .writeFailed)) ∧
    (bs.running = true → env.writeOk = true → env.timedOut = true →
      bs.execute marker env =
        ({ bs with stderrBuf := "", running := false }, .error .timedOut)) ∧
    (bs.running = true → env.writeOk = true → env.timedOut = false →
      scanLoop marker ScanState.init env.lines = .streamClosed →
      bs.execute marker env =
        ({ bs with stderrBuf := "", running := false }, .error .readFailed)) ∧
    (bs.running = true → env.writeOk = true → env.timedOut = false →
      ∀ out, scanLoop marker ScanState.init env.lines = .completed out →
        bs.execute marker env =
          ({ bs with stderrBuf := "" },
            .ok (withStderrSection (trimRightNewline out) env.stderrAfter)) ∧
        (bs.execute marker env).1.running = true) := by
  refine ⟨?_, ?_, ?_, ?_, ?_⟩
  · intro hr env'
    simp [BashSession.execute, hr]
  · intro hr hw
    simp [BashSession.execute, hr, hw]
  · intro hr hw ht
    simp [BashSession.execute, hr, hw, ht]
  · intro hr hw ht hscan
    simp [BashSession.execute, hr, hw, ht, hscan]
  · intro hr hw ht out hscan
    have h := execute_completed bs marker env out hr hw ht hscan
    exact ⟨h, by rw [h]; exact hr⟩

/-- C3 witness: a timeout on a running session returns the timeout failure
and marks the session dead. -/
theorem execute_failure_cases_witness :
    mkSession.running = true ∧
    mkSession.execute "M" ⟨true, true, [], ""⟩ =
      ({ mkSession with running := false }, .error .timedOut) := by
  refine ⟨rfl, ?_⟩
  have h := (execute_failure_cases mkSession "M" ⟨true, true, [], ""⟩).2.2.1 rfl rfl rfl
  rw [h]
  rfl

/-- C4: when no session exists or the current one is dead, `ExecuteCommand`
first closes the dead session (leaving it non-running with its process
reaped), then on successful creation installs a fresh session and delegates
the command to it; on creation failure it returns the wrapped error and the
manager is left without a live session, so the next call takes the
creation path again. -/
theorem executeCommand_recreates_dead_session (bm : BashManager) (env : MgrEnv)
    (h : sessionDead bm = true) :
    (∀ s, bm.session = some s →
      (bm.ExecuteCommand env).closedOld = some s.close ∧
      s.close.running = false ∧ s.close.proc.reaped = true) ∧
    (env.createOk = true →
      (bm.ExecuteCommand env).mgr.session =
        some (mkSession.execute env.marker env.exec).1 ∧
      (bm.ExecuteCommand env).result =
        (match (mkSession.execute env.marker env.exec).2 with
          | .ok out => .ok out
          | .error e => .error (.execFailed e))) ∧
    (env.createOk = false →
      (bm.ExecuteCommand env).result = .error .createFailed ∧
      sessionDead (bm.ExecuteCommand env).mgr = true) := by
  obtain ⟨os⟩ := bm
  cases os with
  | none =>
    refine ⟨fun s hs => by simp at hs, fun hc => ?_, fun hc => ?_⟩
    · simp [BashManager.ExecuteCommand, hc]
    · simp [BashManager.ExecuteCommand, hc, sessionDead]
  | some s =>
    have hrun : s.running = false := by
      simpa [sessionDead] using h
    refine ⟨fun s' hs' => ?_, fun hc => ?_, fun hc => ?_⟩
    · obtain rfl : s = s' := by simpa using hs'
      refine ⟨?_, rfl, rfl⟩
      simp [BashManager.ExecuteCommand, hrun]
      cases hc : env.createOk <;> simp [hc]
    · simp [BashManager.ExecuteCommand, hrun, hc]
    · refine ⟨?_, ?_⟩ <;>
        simp [BashManager.ExecuteCommand, hrun, hc, sessionDead, BashSession.close]

/-- C4 witness: with a dead session present and session creation failing,
the call surfaces the creation error and the manager still has no live
session. -/
theorem executeCommand_recreates_dead_session_witness :
    sessionDead ⟨some deadSession⟩ = true ∧
    ((⟨some deadSession⟩ : BashManager).ExecuteCommand
      ⟨false, "M", ⟨true, false, [], ""⟩⟩).result = .error .createFailed ∧
    sessionDead ((⟨some deadSession⟩ : BashManager).ExecuteCommand
      ⟨false, "M", ⟨true, false, [], ""⟩⟩).mgr = true := by
  have h := (executeCommand_recreates_dead_session ⟨some deadSession⟩
    ⟨false, "M", ⟨true, false, [], ""⟩⟩ rfl).2.2 rfl
  exact ⟨rfl, h.1, h.2⟩

/-- C5 counterexample: the claim says two consecutive `close` calls never
attempt to kill the already-reaped process a second time; in fact the
second `close` invokes `Kill` on the process handle again (bash.go lines
318-321 run unconditionally), so after two calls the handle has seen two
kill attempts — the second one merely fails as a no-op because the process
was already reaped. -/
theorem close_second_kill_counterexample :
    mkSession.close.close.proc.killCalls = 2 ∧
    ¬ mkSession.close.close.proc.killCalls ≤ 1 := by decide

/-- C5 (amended): `close` is idempotent in its observable effect — every
call leaves `running = false`, all three pipes closed and the process
reaped, and a second call changes nothing except recording one more
(no-op) kill invocation on the already-reaped handle: in particular it
delivers no second signal and produces no error. -/
theorem close_idempotent (bs : BashSession) :
    bs.close.running = false ∧ bs.close.stdinOpen = false ∧
    bs.close.stdoutOpen = false ∧ bs.close.stderrOpen = false ∧
    bs.close.proc.reaped = true ∧
    bs.close.close =
      { bs.close with
        proc := { bs.close.proc with killCalls := bs.close.proc.killCalls + 1 } } ∧
    bs.close.close.proc.signaled = bs.close.proc.signaled := by
  refine ⟨rfl, rfl, rfl, rfl, rfl, ?_, ?_⟩ <;>
    simp [BashSession.close, ProcState.kill, ProcState.wait]

end MCPBash

namespace MCPServer

open MCPBash (hasPrefix)

theorem method_ne_of_notifMethod (m : String)
    (h : hasPrefix m "notifications/" = true) :
    m ≠ "initialize" ∧ m ≠ "initialized" := by
  constructor <;> (intro he; subst he; revert h; decide)

/-- C6 counterexample: the claim says a frame carrying no identifier never
receives a Response frame; but the server classifies notifications by the
"notifications/" method-name prefix, not by the missing id — an id-less
frame with method "tools/list" received before initialization gets the
-32002 error response (with a null id), and the transport writes it. -/
theorem no_id_frame_response_counterexample :
    (freshServer.handleRequest ⟨none, "tools/list", true⟩).2 =
      some (errorResponse none (-32002) "Server not initialized") ∧
    (handleAndRespond freshServer ⟨none, "tools/list", true⟩).2 =
      [errorResponse none (-32002) "Server not initialized"] := by
  constructor <;> rfl

/-- C6 (amended): a frame whose method name starts with "notifications/"
never produces a Response frame, whether or not a notification handler is
registered for the method and in any server state: `handleRequest` returns
an empty response for it and the transport then writes nothing.  Frames
with other methods are answered even when they carry no identifier. -/
theorem notifMethod_no_response (s : Server) (req : RequestMessage)
    (h : hasPrefix req.method "notifications/" = true) :
    (s.handleRequest req).2 = none ∧ (handleAndRespond s req).2 = [] := by
  obtain ⟨h1, h2⟩ := method_ne_of_notifMethod req.method h
  have hr : (s.handleRequest req).2 = none := by
    by_cases hinit : req.method = "notifications/initialized" <;>
      simp [Server.handleRequest, h1, h2, hinit, h]
  exact ⟨hr, by simp [handleAndRespond, hr]⟩

/-- C6 witness: the "notifications/cancelled" notification, with no handler
registered for it, produces no response and nothing is written. -/
theorem notifMethod_no_response_witness :
    hasPrefix "notifications/cancelled" "notifications/" = true ∧
    (freshServer.handleRequest ⟨none, "notifications/cancelled", true⟩).2 = none ∧
    (handleAndRespond freshServer ⟨none, "notifications/cancelled", true⟩).2 = [] := by
  have h := notifMethod_no_response freshServer
    ⟨none, "notifications/cancelled", true⟩ (by decide)
  exact ⟨by decide, h.1, h.2⟩

/-- C7: a Request received while the server is uninitialized, whose method
is neither "initialize" nor one of the notification spellings nor "ping",
is answered with error code -32002 correlated to the request identifier —
a response is produced, not a hang. -/
theorem uninitialized_request_rejected (s : Server) (req : RequestMessage) (i : Nat)
    (hready : s.ready = false)
    (hid : req.id = some i)
    (h1 : req.method ≠ "initialize")
    (h2 : hasPrefix req.method "notifications/" = false)
    (h3 : req.method ≠ "initialized")
    (h4 : req.method ≠ "ping") :
    s.handleRequest req =
      (s, some (errorResponse (some i) (-32002) "Server not initialized")) := by
  have h5 : req.method ≠ "notifications/initialized" := by
    intro he
    rw [he] at h2
    exact absurd h2 (by decide)
  simp [Server.handleRequest, h1, h5, h3, h2, hready, h4, hid, errorResponse]

/-- C7 witness: a "tools/call" request with id 3 on the fresh uninitialized
server receives the -32002 error response. -/
theorem uninitialized_request_rejected_witness :
    freshServer.ready = false ∧
    freshServer.handleRequest ⟨some 3, "tools/call", true⟩ =
      (freshServer, some (errorResponse (some 3) (-32002) "Server not initialized")) :=
  ⟨rfl, uninitialized_request_rejected freshServer ⟨some 3, "tools/call", true⟩ 3
    rfl rfl (by decide) (by decide) (by decide) (by decide)⟩

/-- C10: a frame whose method is exactly "initialized" (without the
"notifications/" prefix) is treated the same as the
"notifications/initialized" notification: in any state the server becomes
initialized and no response is returned, exactly as for the prefixed
spelling of the same frame. -/
theorem legacy_initialized_method (s : Server) (req : RequestMessage)
    (h : req.method = "initialized") :
    s.handleRequest req = ({ s with ready := true }, none) ∧
    s.handleRequest { req with method := "notifications/initialized" } =
      ({ s with ready := true }, none) := by
  constructor
  · simp [Server.handleRequest, h]
  · simp [Server.handleRequest]

/-- C10 witness: the legacy "initialized" frame on the fresh server sets
the ready flag and yields no response. -/
theorem legacy_initialized_method_witness :
    freshServer.handleRequest ⟨none, "initialized", true⟩ =
      ({ freshServer with ready := true }, none) :=
  (legacy_initialized_method freshServer ⟨none, "initialized", true⟩ rfl).1

end MCPServer

namespace MCPBash

/-! ## Helper lemmas on the stderr drainer -/

theorem drainStep_full (b l : String) (hb : MaxOutputSize ≤ b.length) :
    drainStep b l = b := by
  simp [drainStep, Nat.not_lt.mpr hb]

theorem drainStep_bound (buf l : String) (L : Nat) (hl : l.length ≤ L)
    (hbuf : buf.length ≤ MaxOutputSize + L) :
    (drainStep buf l).length ≤ MaxOutputSize + L := by
  by_cases hlt : buf.length < MaxOutputSize
  · simp only [drainStep, hlt, if_pos, String.length_append]
    have h1 : ("\n" : String).length = 1 := rfl
    omega
  · rw [drainStep_full buf l (Nat.not_lt.mp hlt)]
    exact hbuf

theorem drainLines_bound (lines : List String) (L : Nat) :
    ∀ buf : String, (∀ l ∈ lines, l.length ≤ L) →
      buf.length ≤ MaxOutputSize + L →
      (drainLines buf lines).length ≤ MaxOutputSize + L := by
  induction lines with
  | nil => intro buf _ hbuf; exact hbuf
  | cons l ls ih =>
    intro buf hL hbuf
    have hl := hL l (List.mem_cons_self l ls)
    have hL' : ∀ x ∈ ls, x.length ≤ L := fun x hx => hL x (List.mem_cons_of_mem l hx)
    show (drainLines (drainStep buf l) ls).length ≤ MaxOutputSize + L
    exact ih (drainStep buf l) hL' (drainStep_bound buf l L hl hbuf)

theorem drainLines_full (buf : String) (lines : List String)
    (hb : MaxOutputSize ≤ buf.length) :
    drainLines buf lines = buf := by
  induction lines with
  | nil => rfl
  | cons l ls ih =>
    show drainLines (drainStep buf l) ls = buf
    rw [drainStep_full buf l hb]
    exact ih

/-- C8 counterexample: the claim says the diagnostic buffer never exceeds
`MaxOutputSize`; one stderr line of exactly `MaxOutputSize` bytes makes the
buffer reach `MaxOutputSize + 1` bytes, because the cap is only checked
before appending a line (bash.go line 170) and a whole line plus its
newline is then appended. -/
theorem stderr_cap_exceeded_counterexample :
    (drainLines "" [capLine]).length = MaxOutputSize + 1 ∧
    MaxOutputSize < (drainLines "" [capLine]).length := by
  have hcap : capLine.length = MaxOutputSize := by
    show (List.replicate MaxOutputSize 'a').length = MaxOutputSize
    exact List.length_replicate _ _
  have h : drainLines "" [capLine] = "" ++ capLine ++ "\n" := by
    show drainLines (drainStep "" capLine) [] = "" ++ capLine ++ "\n"
    rw [drainStep, if_pos (by decide : ("" : String).length < MaxOutputSize)]
    rfl
  have hlen : (drainLines "" [capLine]).length = MaxOutputSize + 1 := by
    rw [h]
    simp only [String.length_append]
    have h0 : ("" : String).length = 0 := rfl
    have h1 : ("\n" : String).length = 1 := rfl
    omega
  exact ⟨hlen, by omega⟩

/-- C8 (amended): the drainer never errors and enforces a weaker bound than
claimed — if every stderr line is at most `L` bytes the buffer stays within
`MaxOutputSize + L` (the cap is checked only before appending, so the last
accepted line may carry the buffer past `MaxOutputSize`); once the buffer
has reached the cap, every further line is silently dropped and the buffer,
including its head, is left untouched. -/
theorem stderr_buffer_cap (buf : String) (lines : List String) (L : Nat)
    (hL : ∀ l ∈ lines, l.length ≤ L)
    (hbuf : buf.length ≤ MaxOutputSize + L) :
    (drainLines buf lines).length ≤ MaxOutputSize + L ∧
    (∀ b l' : String, MaxOutputSize ≤ b.length → drainStep b l' = b) ∧
    (MaxOutputSize ≤ buf.length → drainLines buf lines = buf) :=
  ⟨drainLines_bound lines L buf hL hbuf,
    fun b l' hb => drainStep_full b l' hb,
    fun hcap => drainLines_full buf lines hcap⟩

/-- C8 witness: a single short stderr line respects the bound. -/
theorem stderr_buffer_cap_witness :
    (∀ l ∈ ["oops"], l.length ≤ 4) ∧ ("" : String).length ≤ MaxOutputSize + 4 ∧
    (drainLines "" ["oops"]).length ≤ MaxOutputSize + 4 :=
  ⟨by decide, by decide, (stderr_buffer_cap "" ["oops"] 4 (by decide) (by decide)).1⟩

end MCPBash

namespace MCPConfig

/-- C9: for every configuration file that is successfully read and parsed,
a parse result that does not set `enabled` to true (for instance a file
containing only `commandTimeout`, whose other fields keep their zero
values) makes `LoadConfig` return the `ErrBashDisabled` error and no
configuration; a usable configuration is returned only when the parsed file
has `enabled = true` or when no file exists at all, in which case the
generated default itself has `Enabled = true`. -/
theorem loadConfig_disabled_enforcement (file : ConfigFile) (writeOk : Bool) :
    (∀ c, file = .parsed c → c.enabled = false →
      LoadConfig file writeOk = .error .bashDisabled) ∧
    (∀ c', LoadConfig file writeOk = .ok c' →
      (∃ c, file = .parsed c ∧ c.enabled = true) ∨
        (file = .absent ∧ c'.enabled = true)) ∧
    createDefaultConfig true = .ok { commandTimeout := 600, enabled := true, network := none } := by
  refine ⟨?_, ?_, rfl⟩
  · intro c hfile henabled
    subst hfile
    simp [LoadConfig, henabled]
  · intro c' hok
    cases file with
    | absent =>
      right
      refine ⟨rfl, ?_⟩
      cases writeOk with
      | true =>
        have : c' = { commandTimeout := 600, enabled := true, network := none } := by
          simpa [LoadConfig, createDefaultConfig] using hok.symm
        rw [this]
      | false => simp [LoadConfig, createDefaultConfig] at hok
    | unreadable => simp [LoadConfig] at hok
    | unparsable => simp [LoadConfig] at hok
    | parsed c =>
      left
      refine ⟨c, rfl, ?_⟩
      by_cases he : c.enabled = false
      · simp [LoadConfig, he] at hok
      · simpa using he

/-- C9 witness: a parsed file that sets only `commandTimeout` (so `enabled`
keeps its zero value `false`) is rejected with the disabled error, while
the generated default configuration is enabled. -/
theorem loadConfig_disabled_enforcement_witness :
    LoadConfig (.parsed { commandTimeout := 600, enabled := false, network := none }) true =
      .error .bashDisabled ∧
    createDefaultConfig true =
      .ok { commandTimeout := 600, enabled := true, network := none } := by
  have h := loadConfig_disabled_enforcement
    (.parsed { commandTimeout := 600, enabled := false, network := none }) true
  exact ⟨h.1 _ rfl rfl, h.2.2⟩

end MCPConfig
